import Mathlib

/-!
Verification of the ChatSupportSphere message/feedback lifecycle.

This file shallowly embeds the server storage layer (server/storage.ts:
MemStorage and PythonExecutor), the HTTP route handlers that the
specification calls the Message Lifecycle Coordinator and Feedback
Coordinator (server/routes.ts), and the client polling protocol
(client/public/widget.js), and proves properties of the spec against them.

Modelling conventions:
* JS timestamps (Date) are modelled as natural numbers supplied by the
  caller ("now" parameters); only their ordering matters.
* Dynamic JSON values are modelled by the inductive JsonVal; JS truthiness
  on such values is jsTruthy.
* The pythonResponse column stores JSON.stringify of a JSON value in the
  source.  Serialisation is injective and JSON.stringify of a provided
  value is a nonempty string, so we store the value itself; the truthiness
  test the source performs on the serialised string coincides with
  presence of the optional value.
* JS Map objects are modelled as lists in insertion order; Map.set is
  mapSetBy, which replaces in place on an existing key and appends
  otherwise, exactly as Map iteration order behaves.
-/

namespace ChatSupport

/-- Dynamic JSON value (the untyped output of the response generator). -/
inductive JsonVal where
  | null
  | bool (b : Bool)
  | num (n : Int)
  | str (s : String)
  | arr (elems : List JsonVal)
  | obj (fields : List (String × JsonVal))

/-- JS truthiness of a JSON value. -/
def jsTruthy : JsonVal → Bool
  | .null => false
  | .bool b => b
  | .num n => n != 0
  | .str s => s != ""
  | .arr _ => true
  | .obj _ => true

/-- JS property access (o?.k): field lookup on an object, undefined otherwise. -/
def jsonGet : JsonVal → String → Option JsonVal
  | .obj fields, k => (fields.find? (fun p => p.1 == k)).map (fun p => p.2)
  | _, _ => none

/-- JS `x || null` on an optional JSON value: falsy values collapse to null. -/
def jsOrNull (v : Option JsonVal) : Option JsonVal :=
  match v with
  | some x => if jsTruthy x then some x else none
  | none => none

/-- JS truthiness of an optional string (absent and "" are falsy). -/
def strTruthy : Option String → Bool
  | some s => s != ""
  | none => false

/-- JS `a || b` on optional strings. -/
def strOr (a b : Option String) : Option String :=
  if strTruthy a then a else b

/-- JS `x || null` on an optional string. -/
def strOrNull (a : Option String) : Option String :=
  if strTruthy a then a else none

/-! ### Data model (shared/schema.ts) -/

/-- A chat_sessions row. -/
structure ChatSession where
  id : Nat
  sessionId : String
  website : Option String
  createdAt : Nat
deriving Repr, DecidableEq

/-- Insert shape for chat_sessions (id and createdAt omitted). -/
structure InsertChatSession where
  sessionId : String
  website : Option String
deriving Repr, DecidableEq

/-- A chat_messages row.  The message body is dynamic in the source (the
bot reply is whatever `result.output?.response` evaluated to), hence
Option JsonVal. -/
structure ChatMessage where
  id : Nat
  sessionId : String
  message : Option JsonVal
  sender : String
  timestamp : Nat
  hasFiles : Bool
  processingStatus : String
  pythonResponse : Option JsonVal

/-- Insert shape for chat_messages.  The background task at
routes.ts:566-573 passes processingStatus and pythonResponse fields in the
inserted object; they are carried here so that createChatMessage can be
seen to discard them (its explicit fields come after the object spread). -/
structure InsertChatMessage where
  sessionId : String
  message : Option JsonVal
  sender : String
  hasFiles : Option Bool
  processingStatus : Option String
  pythonResponse : Option JsonVal

/-- A chat_files row. -/
structure ChatFile where
  id : Nat
  messageId : Nat
  filename : String
  originalName : String
  mimetype : String
  size : Nat
  path : String
  uploadedAt : Nat
deriving Repr, DecidableEq

/-- Insert shape for chat_files. -/
structure InsertChatFile where
  messageId : Nat
  filename : String
  originalName : String
  mimetype : String
  size : Nat
  path : String
deriving Repr, DecidableEq

/-- A chat_feedback row. -/
structure ChatFeedback where
  id : Nat
  sessionId : String
  messageId : Int
  isHelpful : Bool
  timestamp : Nat
deriving Repr, DecidableEq

/-- Insert shape for chat_feedback. -/
structure InsertChatFeedback where
  sessionId : String
  messageId : Int
  isHelpful : Bool
deriving Repr, DecidableEq

/-! ### MemStorage (server/storage.ts) -/

/-- JS Map.set keyed by `key`: replace in place if the key is present,
append otherwise (Map iteration preserves insertion order). -/
def mapSetBy {α β : Type} [BEq β] (key : α → β) (l : List α) (x : α) : List α :=
  if l.any (fun t => key t == key x) then
    l.map (fun t => if key t == key x then x else t)
  else
    l ++ [x]

/-- The in-memory store: four maps (in insertion order) and four id counters. -/
structure MemStorage where
  sessions : List ChatSession
  messages : List ChatMessage
  files : List ChatFile
  feedback : List ChatFeedback
  sessionIdCounter : Nat
  messageIdCounter : Nat
  fileIdCounter : Nat
  feedbackIdCounter : Nat

/-- A fresh MemStorage (all maps empty, counters at 1). -/
def MemStorage.empty : MemStorage :=
  { sessions := [], messages := [], files := [], feedback := []
    sessionIdCounter := 1, messageIdCounter := 1, fileIdCounter := 1, feedbackIdCounter := 1 }

/-- MemStorage.createChatSession. -/
def createChatSession (ins : InsertChatSession) (now : Nat) (st : MemStorage) :
    ChatSession × MemStorage :=
  let id := st.sessionIdCounter
  let session : ChatSession :=
    { id := id, sessionId := ins.sessionId, website := strOrNull ins.website, createdAt := now }
  (session,
   { st with sessions := mapSetBy (fun s => s.sessionId) st.sessions session
             sessionIdCounter := id + 1 })

/-- MemStorage.getChatSession. -/
def getChatSession (sessionId : String) (st : MemStorage) : Option ChatSession :=
  st.sessions.find? (fun s => s.sessionId == sessionId)

/-- MemStorage.createChatMessage.  Note that the explicit fields written
after the object spread override any processingStatus or pythonResponse
carried by the insert: every created message starts as "pending" with no
stored generator output. -/
def createChatMessage (ins : InsertChatMessage) (now : Nat) (st : MemStorage) :
    ChatMessage × MemStorage :=
  let id := st.messageIdCounter
  let msg : ChatMessage :=
    { id := id
      sessionId := ins.sessionId
      sender := ins.sender
      timestamp := now
      processingStatus := "pending"
      pythonResponse := none
      message := jsOrNull ins.message
      hasFiles := ins.hasFiles.getD false }
  (msg,
   { st with messages := mapSetBy (fun m => m.id) st.messages msg
             messageIdCounter := id + 1 })

/-- MemStorage.getChatMessages: filter by session, sort ascending by
timestamp (JS Array.prototype.sort is stable, hence mergeSort). -/
def getChatMessages (sessionId : String) (st : MemStorage) : List ChatMessage :=
  (st.messages.filter (fun m => m.sessionId == sessionId)).mergeSort
    (fun a b => a.timestamp ≤ b.timestamp)

/-- MemStorage.updateMessageStatus.  The source tests `if (pythonResponse)`
on the serialised payload, which is truthy exactly when a payload was
passed, so presence of the optional argument decides the overwrite. -/
def updateMessageStatus (messageId : Nat) (status : String) (pythonResponse : Option JsonVal)
    (st : MemStorage) : Option ChatMessage × MemStorage :=
  match st.messages.find? (fun m => m.id == messageId) with
  | some m =>
    let m' : ChatMessage :=
      { m with processingStatus := status
               pythonResponse := match pythonResponse with
                 | some p => some p
                 | none => m.pythonResponse }
    (some m', { st with messages := mapSetBy (fun t => t.id) st.messages m' })
  | none => (none, st)

/-- MemStorage.createChatFile. -/
def createChatFile (ins : InsertChatFile) (now : Nat) (st : MemStorage) :
    ChatFile × MemStorage :=
  let id := st.fileIdCounter
  let file : ChatFile :=
    { id := id, messageId := ins.messageId, filename := ins.filename
      originalName := ins.originalName, mimetype := ins.mimetype
      size := ins.size, path := ins.path, uploadedAt := now }
  (file,
   { st with files := mapSetBy (fun f => f.id) st.files file
             fileIdCounter := id + 1 })

/-- MemStorage.getChatFiles. -/
def getChatFiles (messageId : Nat) (st : MemStorage) : List ChatFile :=
  st.files.filter (fun f => f.messageId == messageId)

/-- MemStorage.createFeedback. -/
def createFeedback (ins : InsertChatFeedback) (now : Nat) (st : MemStorage) :
    ChatFeedback × MemStorage :=
  let id := st.feedbackIdCounter
  let fb : ChatFeedback :=
    { id := id, sessionId := ins.sessionId, messageId := ins.messageId
      isHelpful := ins.isHelpful, timestamp := now }
  (fb,
   { st with feedback := mapSetBy (fun f => f.id) st.feedback fb
             feedbackIdCounter := id + 1 })

/-- MemStorage.getFeedbackForMessage: first record for the message id. -/
def getFeedbackForMessage (messageId : Int) (st : MemStorage) : Option ChatFeedback :=
  st.feedback.find? (fun fb => fb.messageId == messageId)

/-- MemStorage.updateFeedback.  Returns none where the source throws
"Feedback not found". -/
def updateFeedback (feedbackId : Nat) (isHelpful : Bool) (now : Nat) (st : MemStorage) :
    Option (ChatFeedback × MemStorage) :=
  match st.feedback.find? (fun fb => fb.id == feedbackId) with
  | none => none
  | some fb =>
    let fb' : ChatFeedback := { fb with isHelpful := isHelpful, timestamp := now }
    some (fb', { st with feedback := mapSetBy (fun f => f.id) st.feedback fb' })

/-! ### PythonExecutor (server/services/python-executor.ts)

The external process interaction is embedded by its observable outcome:
which of the competing resolutions of the wrapping promise happened first
(the close event, the spawn error event, or the 30 second timeout).  The
per-file path validation loop is collapsed into a single flag, and the
JSON.parse attempt is a parameter, since both are external to the logic
under specification. -/

/-- The PythonExecutionResult shape (executionTime, a wall-clock
measurement, is not modelled). -/
structure ExecResult where
  success : Bool
  output : Option JsonVal
  error : Option String

/-- Which resolution of the subprocess promise happened first. -/
inductive ProcOutcome where
  | close (code : Int) (stdout : String) (stderr : String)
  | spawnError (message : String)
  | timeout

/-- PythonExecutor.executePythonScript: the pre-checks and the result
handlers registered on the subprocess, in source order. -/
def executePythonScript (parseJson : String → Option JsonVal)
    (scriptExists : Bool) (filesValid : Bool) (scriptPath : String)
    (outcome : ProcOutcome) : ExecResult :=
  if !scriptExists then
    { success := false, output := none
      error := some ("Python script not found at " ++ scriptPath) }
  else if !filesValid then
    { success := false, output := none, error := some "Invalid file path" }
  else
    match outcome with
    | .close code stdout stderr =>
      if code != 0 then
        { success := false, output := none
          error := some (if stderr != "" then stderr
                         else "Python script exited with code " ++ toString code) }
      else
        match parseJson stdout.trim with
        | some json => { success := true, output := some json, error := none }
        | none =>
          { success := true
            output := some (.obj [("response", .str stdout.trim)])
            error := none }
    | .spawnError m =>
      { success := false, output := none
        error := some ("Failed to execute Python script: " ++ m) }
    | .timeout =>
      { success := false, output := none
        error := some "Python script execution timeout (30s)" }

/-! ### Route handlers (server/routes.ts) -/

/-- Outcome of a route handler: the JSON payload or an error status. -/
inductive ApiResult (α : Type) where
  | ok (value : α)
  | err (status : Nat) (message : String)

/-- POST /api/chat/session.  The nanoid() the handler would generate is
passed in as freshId; origin and referer are the request headers. -/
def postChatSession (sessionId website origin referer : Option String)
    (freshId : String) (now : Nat) (st : MemStorage) :
    ApiResult ChatSession × MemStorage :=
  match if strTruthy sessionId then getChatSession (sessionId.getD "") st else none with
  | some existingSession => (.ok existingSession, st)
  | none =>
    let newSessionId := if strTruthy sessionId then sessionId.getD "" else freshId
    let sessionData : InsertChatSession :=
      { sessionId := newSessionId, website := strOr (strOr website origin) referer }
    let (session, st') := createChatSession sessionData now st
    (.ok session, st')

/-- A file already processed by the upload middleware. -/
structure UploadedFile where
  filename : String
  originalName : String
  mimetype : String
  size : Nat
  path : String
deriving Repr, DecidableEq

/-- Persist the processed uploads for a message (the Promise.all over
storage.createChatFile). -/
def saveFiles (messageId : Nat) (files : List UploadedFile) (now : Nat) (st : MemStorage) :
    List ChatFile × MemStorage :=
  match files with
  | [] => ([], st)
  | f :: rest =>
    let (cf, st1) := createChatFile
      { messageId := messageId, filename := f.filename, originalName := f.originalName
        mimetype := f.mimetype, size := f.size, path := f.path } now st
    let (cfs, st2) := saveFiles messageId rest now st1
    (cf :: cfs, st2)

/-- POST /api/chat/message, up to the point where the response is sent.
Form fields may be absent; zod validation requires sessionId and sender to
be strings (message is nullable), and a parse failure is caught as a 500.
The `message || null` collapse happens before validation.  When the sender
is "user" the handler marks the freshly created message "processing"
before returning; the background generation task (processGenerationResult
below) is scheduled by setImmediate and is not part of this synchronous
path.  The JS handler responds with the same object the store mutated, so
the returned record is read back from the final store. -/
def postChatMessage (sessionId message sender : Option String)
    (files : List UploadedFile) (now : Nat) (st : MemStorage) :
    ApiResult (ChatMessage × List ChatFile) × MemStorage :=
  match sessionId, sender with
  | some sid, some snd =>
    let messageData : InsertChatMessage :=
      { sessionId := sid
        message := (strOrNull message).map .str
        sender := snd
        hasFiles := some (files.length != 0)
        processingStatus := none
        pythonResponse := none }
    let (chatMessage, st1) := createChatMessage messageData now st
    let (savedFiles, st2) := saveFiles chatMessage.id files now st1
    let st3 := if snd == "user" then (updateMessageStatus chatMessage.id "processing" none st2).2
               else st2
    let responseMsg := (st3.messages.find? (fun m => m.id == chatMessage.id)).getD chatMessage
    (.ok (responseMsg, savedFiles), st3)
  | _, _ => (.err 500 "Failed to send chat message", st)

/-- The fixed fallback reply used when the generator output has no truthy
response field. -/
def fallbackReply : JsonVal := .str "I have processed your message."

/-- The JS expression `result.output?.response || fallback`. -/
def botResponse (output : Option JsonVal) : JsonVal :=
  match output.bind (fun o => jsonGet o "response") with
  | some v => if jsTruthy v then v else fallbackReply
  | none => fallbackReply

/-- The background generation task body (routes.ts:556-580): on success,
mark the user message completed storing the generator output and create
the bot reply message; on failure, mark it failed storing the error
payload (JSON.stringify drops an undefined error field). -/
def processGenerationResult (userMsgId : Nat) (sessionId : String) (result : ExecResult)
    (now : Nat) (st : MemStorage) : MemStorage :=
  if result.success then
    let st1 := (updateMessageStatus userMsgId "completed" result.output st).2
    (createChatMessage
      { sessionId := sessionId
        message := some (botResponse result.output)
        sender := "bot"
        hasFiles := some false
        processingStatus := some "completed"
        pythonResponse := result.output } now st1).2
  else
    (updateMessageStatus userMsgId "failed"
      (some (.obj (match result.error with
                   | some e => [("error", .str e)]
                   | none => []))) st).2

/-- POST /api/feedback.  The required-fields test is JS truthiness on
sessionId and messageId plus a typeof check on isHelpful (covered by the
Bool type); a JSON number messageId is falsy exactly when it is 0, and
parseInt is the identity on it. -/
def postFeedback (sessionId : String) (messageId : Int) (isHelpful : Bool)
    (now : Nat) (st : MemStorage) : ApiResult ChatFeedback × MemStorage :=
  if sessionId == "" || messageId == 0 then
    (.err 400 "Missing required fields: sessionId, messageId, isHelpful", st)
  else
    match getChatSession sessionId st with
    | none => (.err 404 "Session not found", st)
    | some _ =>
      match getFeedbackForMessage messageId st with
      | some existingFeedback =>
        match updateFeedback existingFeedback.id isHelpful now st with
        | some (fb, st') => (.ok fb, st')
        | none => (.err 500 "Failed to submit feedback", st)
      | none =>
        let (fb, st') := createFeedback
          { sessionId := sessionId, messageId := messageId, isHelpful := isHelpful } now st
        (.ok fb, st')

/-! ### Client poller (client/public/widget.js) -/

/-- Client-side polling state: whether the 500 ms fast-poll interval is
set and whether the input controls are disabled. -/
structure PollState where
  fastPolling : Bool
  inputDisabled : Bool
deriving Repr, DecidableEq

/-- widget.js loadMessages: most recent user message (filter + slice(-1)). -/
def latestUserMsg (msgs : List ChatMessage) : Option ChatMessage :=
  (msgs.filter (fun m => m.sender == "user")).getLast?

/-- widget.js loadMessages: most recent bot message. -/
def latestBotMsg (msgs : List ChatMessage) : Option ChatMessage :=
  (msgs.filter (fun m => m.sender == "bot")).getLast?

/-- Stop condition (a): both a user and a bot message exist and the bot
one is strictly later. -/
def botAfterUser (msgs : List ChatMessage) : Bool :=
  match latestUserMsg msgs, latestBotMsg msgs with
  | some u, some b => b.timestamp > u.timestamp
  | _, _ => false

/-- widget.js loadMessages: some message still pending or processing. -/
def hasPendingMessages (msgs : List ChatMessage) : Bool :=
  msgs.any (fun m => m.processingStatus == "processing" || m.processingStatus == "pending")

/-- One execution of loadMessages over a fetched list, restricted to its
effect on the polling state: the first branch stops the fast poll and
re-enables input when the latest bot message postdates the latest user
message; the second stops and re-enables when nothing is pending or
processing and the interval is still set. -/
def loadMessagesStep (msgs : List ChatMessage) (s : PollState) : PollState :=
  let s1 := if botAfterUser msgs then { fastPolling := false, inputDisabled := false } else s
  let s2 := if !hasPendingMessages msgs && s1.fastPolling then
              { fastPolling := false, inputDisabled := false }
            else s1
  s2

/-! ### Observations on a store -/

/-- Processing status of the message with a given id, if present. -/
def statusOf (i : Nat) (st : MemStorage) : Option String :=
  (st.messages.find? (fun m => m.id == i)).map (fun m => m.processingStatus)

/-- Stored generator payload of the message with a given id, if present. -/
def pyRespOf (i : Nat) (st : MemStorage) : Option (Option JsonVal) :=
  (st.messages.find? (fun m => m.id == i)).map (fun m => m.pythonResponse)

/-- Number of bot messages in the store. -/
def botCount (st : MemStorage) : Nat :=
  (st.messages.filter (fun m => m.sender == "bot")).length

/-- All feedback records for a message id. -/
def feedbacksFor (mid : Int) (st : MemStorage) : List ChatFeedback :=
  st.feedback.filter (fun fb => fb.messageId == mid)

/-! ### List helper lemmas -/

theorem mapSetBy_eq_append {α β : Type} [BEq β] (key : α → β) (l : List α) (x : α)
    (h : ∀ t ∈ l, (key t == key x) = false) : mapSetBy key l x = l ++ [x] := by
  have hany : l.any (fun t => key t == key x) = false := by
    simp only [List.any_eq_false]
    intro t ht
    simp [h t ht]
  simp [mapSetBy, hany]

theorem mapSetBy_eq_map {α β : Type} [BEq β] (key : α → β) (l : List α) (x : α)
    (h : l.any (fun t => key t == key x) = true) :
    mapSetBy key l x = l.map (fun t => if key t == key x then x else t) := by
  simp [mapSetBy, h]

theorem find?_map_replace {α : Type} (keyf : α → Nat) (l : List α) (mid i : Nat) (x : α)
    (hne : i ≠ mid) (hx : keyf x = mid) :
    (l.map (fun t => if keyf t == mid then x else t)).find? (fun t => keyf t == i) =
      l.find? (fun t => keyf t == i) := by
  induction l with
  | nil => rfl
  | cons a l ih =>
    simp only [List.map_cons]
    by_cases ha : keyf a = mid
    · rw [if_pos (by simp [ha]), List.find?_cons, List.find?_cons]
      have h1 : (keyf x == i) = false := by
        simp only [beq_eq_false_iff_ne, ne_eq, hx]
        omega
      have h2 : (keyf a == i) = false := by
        simp only [beq_eq_false_iff_ne, ne_eq, ha]
        omega
      simp only [h1, h2]
      exact ih
    · rw [if_neg (by simp [ha]), List.find?_cons, List.find?_cons]
      cases hpa : (keyf a == i)
      · simp only [hpa]
        exact ih
      · simp only [hpa]

theorem find?_map_replace_self {α : Type} (keyf : α → Nat) (l : List α) (mid : Nat) (x : α)
    (hx : keyf x = mid)
    (hsome : (l.find? (fun t => keyf t == mid)).isSome = true) :
    (l.map (fun t => if keyf t == mid then x else t)).find? (fun t => keyf t == mid) =
      some x := by
  induction l with
  | nil => simp at hsome
  | cons a l ih =>
    by_cases ha : keyf a = mid
    · simp [List.find?_cons, ha, hx]
    · simp only [List.map_cons, List.find?_cons]
      rw [if_neg (by simp [ha])]
      have : (keyf a == mid) = false := by simp [ha]
      rw [List.find?_cons] at hsome
      simp only [this] at hsome ⊢
      exact ih hsome

theorem mapSetBy_of_find?_nodup {α : Type} (keyf : α → Nat) (l : List α) (m x : α)
    (hx : keyf x = keyf m)
    (hfind : l.find? (fun t => keyf t == keyf m) = some m)
    (hnd : (l.map keyf).Nodup) :
    ∃ l1 l2, l = l1 ++ m :: l2 ∧
      mapSetBy keyf l x = l1 ++ x :: l2 ∧
      (∀ t ∈ l1, (keyf t == keyf m) = false) ∧
      (∀ t ∈ l2, (keyf t == keyf m) = false) := by
  induction l with
  | nil => simp at hfind
  | cons a l ih =>
    have hnd' : (l.map keyf).Nodup := (List.nodup_cons.mp (by simpa using hnd)).2
    have hhead : keyf a ∉ l.map keyf := (List.nodup_cons.mp (by simpa using hnd)).1
    by_cases ha : keyf a = keyf m
    · have hm : a = m := by
        rw [List.find?_cons] at hfind
        simp only [show (keyf a == keyf m) = true by simp [ha]] at hfind
        injection hfind
      have htail : ∀ t ∈ l, (keyf t == keyf m) = false := by
        intro t ht
        simp only [beq_eq_false_iff_ne, ne_eq]
        intro hcontra
        apply hhead
        rw [ha, ← hcontra]
        exact List.mem_map_of_mem keyf ht
      have htailx : ∀ t ∈ l, (keyf t == keyf x) = false := by
        intro t ht
        rw [hx]
        exact htail t ht
      refine ⟨[], l, by simp [hm], ?_, by simp, htail⟩
      have hany : ((a :: l).any fun t => keyf t == keyf x) = true := by
        simp [hx, ha]
      rw [mapSetBy_eq_map keyf (a :: l) x hany]
      simp only [List.map_cons, List.nil_append]
      rw [if_pos (by simp [hx, ha])]
      congr 1
      calc l.map (fun t => if keyf t == keyf x then x else t)
          = l.map (fun t => t) := List.map_congr_left (by intro t ht; simp [htailx t ht])
        _ = l := List.map_id _
    · rw [List.find?_cons] at hfind
      simp only [show (keyf a == keyf m) = false by simp [ha]] at hfind
      obtain ⟨l1, l2, hl, hset, h1, h2⟩ := ih hfind hnd'
      have hmem : m ∈ l := List.mem_of_find?_eq_some hfind
      have hany : l.any (fun t => keyf t == keyf x) = true := by
        simp only [List.any_eq_true]
        exact ⟨m, hmem, by simp [hx]⟩
      have hanyc : ((a :: l).any fun t => keyf t == keyf x) = true := by
        simp only [List.any_cons, hany, Bool.or_true]
      refine ⟨a :: l1, l2, by simp [hl], ?_, ?_, h2⟩
      · rw [mapSetBy_eq_map keyf (a :: l) x hanyc]
        simp only [List.map_cons]
        rw [if_neg (by simp [hx, ha])]
        have hmap : l.map (fun t => if keyf t == keyf x then x else t) = l1 ++ x :: l2 := by
          rw [← mapSetBy_eq_map keyf l x hany]
          exact hset
        rw [hmap]
        rfl
      · intro t ht
        rcases List.mem_cons.mp ht with rfl | ht'
        · simp [ha]
        · exact h1 t ht'

theorem filter_eq_single {α : Type} (p : α → Bool) (l : List α) (e : α)
    (he : e ∈ l) (hpe : p e = true) (hlen : (l.filter p).length ≤ 1) :
    l.filter p = [e] := by
  have hmem : e ∈ l.filter p := List.mem_filter.mpr ⟨he, hpe⟩
  match hl : l.filter p with
  | [] => rw [hl] at hmem; simp at hmem
  | [a] =>
    rw [hl] at hmem
    simp only [List.mem_singleton] at hmem
    simp [hmem]
  | a :: b :: t => rw [hl] at hlen; simp at hlen

theorem find?_of_nodup_key {α : Type} (keyf : α → Nat) (l : List α) (e : α)
    (hnd : (l.map keyf).Nodup) (he : e ∈ l) :
    l.find? (fun t => keyf t == keyf e) = some e := by
  induction l with
  | nil => simp at he
  | cons a l ih =>
    have hnd' : (l.map keyf).Nodup := (List.nodup_cons.mp (by simpa using hnd)).2
    have hhead : keyf a ∉ l.map keyf := (List.nodup_cons.mp (by simpa using hnd)).1
    rcases List.mem_cons.mp he with rfl | he'
    · simp [List.find?_cons]
    · have hne : (keyf a == keyf e) = false := by
        simp only [beq_eq_false_iff_ne, ne_eq]
        intro h
        exact hhead (h ▸ List.mem_map_of_mem keyf he')
      rw [List.find?_cons]
      simp only [hne]
      exact ih hnd' he'

/-! ### Claim theorems -/

/-- C6: for a generator invocation that signals success (exit code 0), an
output text that does not parse as JSON still yields a success whose
output object has the single field response holding the (trimmed) raw
text, and an output text that parses yields the parsed object as the
output. -/
theorem generatorOutputParsing (parseJson : String → Option JsonVal)
    (scriptPath stdout stderr : String) :
    (parseJson stdout.trim = none →
      executePythonScript parseJson true true scriptPath (.close 0 stdout stderr) =
        { success := true, output := some (.obj [("response", .str stdout.trim)])
          error := none }) ∧
    (∀ j, parseJson stdout.trim = some j →
      executePythonScript parseJson true true scriptPath (.close 0 stdout stderr) =
        { success := true, output := some j, error := none }) := by
  constructor
  · intro h
    simp [executePythonScript, h]
  · intro j h
    simp [executePythonScript, h]

/-- Witness for C6 at concrete inputs: a parser that fails yields the
raw-text fallback, a parser that succeeds yields its value. -/
theorem generatorOutputParsing_check :
    executePythonScript (fun _ => none) true true "python/initialize.py"
        (.close 0 "hi there" "") =
      { success := true, output := some (.obj [("response", .str "hi there".trim)])
        error := none } ∧
    executePythonScript (fun _ => some .null) true true "python/initialize.py"
        (.close 0 "x" "") =
      { success := true, output := some .null, error := none } :=
  ⟨(generatorOutputParsing (fun _ => none) "python/initialize.py" "hi there" "").1 rfl,
   (generatorOutputParsing (fun _ => some .null) "python/initialize.py" "x" "").2 .null rfl⟩

/-- C5: on a poll tick (fast polling active), loadMessages stops fast
polling exactly when the latest bot message strictly postdates the latest
user message or no message is pending/processing, and whenever it stops
it leaves the input enabled. -/
theorem pollStopExactlyWhen (msgs : List ChatMessage) (s : PollState)
    (h : s.fastPolling = true) :
    ((loadMessagesStep msgs s).fastPolling = false ↔
      (botAfterUser msgs = true ∨ hasPendingMessages msgs = false)) ∧
    ((loadMessagesStep msgs s).fastPolling = false →
      (loadMessagesStep msgs s).inputDisabled = false) := by
  unfold loadMessagesStep
  cases hA : botAfterUser msgs <;> cases hB : hasPendingMessages msgs <;>
    simp [hA, hB, h]

/-- Witness for C5: with an empty fetched list nothing is pending, so a
tick stops fast polling and re-enables input. -/
theorem pollStopExactlyWhen_check :
    ((loadMessagesStep [] { fastPolling := true, inputDisabled := true }).fastPolling = false ↔
      (botAfterUser [] = true ∨ hasPendingMessages [] = false)) ∧
    ((loadMessagesStep [] { fastPolling := true, inputDisabled := true }).fastPolling = false →
      (loadMessagesStep [] { fastPolling := true, inputDisabled := true }).inputDisabled = false) :=
  pollStopExactlyWhen [] { fastPolling := true, inputDisabled := true } rfl

/-- C7: session creation is idempotent.  Requesting a session with a known
sessionId returns the stored record and leaves the store untouched;
requesting with no sessionId creates and returns a fresh session under the
generated id. -/
theorem sessionCreationIdempotent (website origin referer : Option String)
    (freshId : String) (now : Nat) (st : MemStorage) :
    (∀ sid s, sid ≠ "" → getChatSession sid st = some s →
      postChatSession (some sid) website origin referer freshId now st = (.ok s, st)) ∧
    (getChatSession freshId st = none →
      postChatSession none website origin referer freshId now st =
        (.ok { id := st.sessionIdCounter, sessionId := freshId
               website := strOrNull (strOr (strOr website origin) referer), createdAt := now },
         { st with
            sessions := st.sessions ++
              [{ id := st.sessionIdCounter, sessionId := freshId
                 website := strOrNull (strOr (strOr website origin) referer), createdAt := now }]
            sessionIdCounter := st.sessionIdCounter + 1 })) := by
  constructor
  · intro sid s hsid hfound
    simp [postChatSession, strTruthy, hsid, hfound]
  · intro hnone
    have hall : ∀ t ∈ st.sessions, (t.sessionId == freshId) = false := by
      rw [getChatSession, List.find?_eq_none] at hnone
      intro t ht
      simpa using hnone t ht
    have key : mapSetBy (fun s => s.sessionId) st.sessions
        { id := st.sessionIdCounter, sessionId := freshId
          website := strOrNull (strOr (strOr website origin) referer), createdAt := now } =
        st.sessions ++
          [{ id := st.sessionIdCounter, sessionId := freshId
             website := strOrNull (strOr (strOr website origin) referer), createdAt := now }] :=
      mapSetBy_eq_append _ _ _ hall
    simp [postChatSession, createChatSession, strTruthy, key]

/-- Witness for C7: both halves applied on a one-session store. -/
theorem sessionCreationIdempotent_check :
    (postChatSession (some "s1") none none none "n1" 7
        (createChatSession { sessionId := "s1", website := none } 0 MemStorage.empty).2 =
      (.ok { id := 1, sessionId := "s1", website := none, createdAt := 0 },
       (createChatSession { sessionId := "s1", website := none } 0 MemStorage.empty).2)) ∧
    (postChatSession none none none none "n1" 7 MemStorage.empty =
      (.ok { id := 1, sessionId := "n1", website := none, createdAt := 7 },
       { MemStorage.empty with
          sessions := [{ id := 1, sessionId := "n1", website := none, createdAt := 7 }]
          sessionIdCounter := 2 })) :=
  ⟨(sessionCreationIdempotent none none none "n1" 7 _).1 "s1" _ (by decide) rfl,
   by
    have h := (sessionCreationIdempotent none none none "n1" 7 MemStorage.empty).2 rfl
    simpa [MemStorage.empty, strOr, strOrNull, strTruthy] using h⟩

/-- C8: listing the messages of a session returns them in non-decreasing
createdAt order, the result is a permutation of exactly the stored
messages of that session, and repeated reads of an unchanged store return
the same sequence. -/
theorem messageListSortedStable (sid : String) (st : MemStorage) :
    List.Pairwise (fun a b : ChatMessage => a.timestamp ≤ b.timestamp)
      (getChatMessages sid st) ∧
    (getChatMessages sid st).Perm (st.messages.filter (fun m => m.sessionId == sid)) ∧
    getChatMessages sid st = getChatMessages sid st := by
  refine ⟨?_, List.mergeSort_perm _ _, rfl⟩
  unfold getChatMessages
  have h := @List.sorted_mergeSort ChatMessage
    (fun a b => decide (a.timestamp ≤ b.timestamp))
    (by
      intro a b c h1 h2
      simp only [decide_eq_true_eq] at h1 h2 ⊢
      omega)
    (by
      intro a b
      simp [Nat.le_total])
    (st.messages.filter (fun m => m.sessionId == sid))
  refine h.imp ?_
  intro a b hab
  simpa using hab

/-- C1 (status recorded as code_bug): on a successful generation the
coordinator passes processingStatus completed and the generator output
when creating the bot message (routes.ts:566-573), but
MemStorage.createChatMessage overrides both after the spread: the bot
message is persisted with processingStatus pending and no pythonResponse.
Its body is the generator reply text, and the user message does get
completed with the stored output. -/
theorem botMessagePersistedPending :
    ((processGenerationResult 1 "s1"
        { success := true, output := some (.obj [("response", .str "hi there")])
          error := none } 20
        (postChatMessage (some "s1") (some "hello") (some "user") [] 10
          MemStorage.empty).2).messages.map
      (fun m => (m.sender, m.processingStatus, m.message, m.pythonResponse))) =
      [("user", "completed", some (.str "hello"),
        some (.obj [("response", .str "hi there")])),
       ("bot", "pending", some (.str "hi there"), none)] := by
  rfl

/-- C2 counterexample: a submission with absent body and no attachments is
accepted by POST /api/chat/message and a Message row is written (store
grows from zero to one message), contradicting the claimed EmptyMessage
rejection. -/
theorem emptySubmissionNotRejected :
    ((postChatMessage (some "s1") none (some "user") [] 5
        (postChatSession (some "s1") none none none "n1" 0 MemStorage.empty).2).1 =
      .ok ({ id := 1, sessionId := "s1", message := none, sender := "user", timestamp := 5
             hasFiles := false, processingStatus := "processing", pythonResponse := none },
           []) ∧
     (postChatMessage (some "s1") none (some "user") [] 5
        (postChatSession (some "s1") none none none "n1" 0 MemStorage.empty).2).2.messages.length = 1 ∧
     (postChatSession (some "s1") none none none "n1" 0 MemStorage.empty).2.messages.length = 0) :=
  ⟨rfl, rfl, rfl⟩

/-- C10 counterexample: with an existing session and a well-typed boolean,
the feedback submission for messageId 0 (a number referring to no stored
Message; the store holds no messages at all) is rejected by the JS
truthiness check on required fields with a 400, and no Feedback record is
created. -/
theorem feedbackZeroMessageIdRejected :
    (postFeedback "s1" 0 true 5
        (createChatSession { sessionId := "s1", website := none } 0 MemStorage.empty).2 =
      (.err 400 "Missing required fields: sessionId, messageId, isHelpful",
       (createChatSession { sessionId := "s1", website := none } 0 MemStorage.empty).2) ∧
     (createChatSession { sessionId := "s1", website := none } 0
        MemStorage.empty).2.feedback.length = 0 ∧
     (getChatSession "s1"
        (createChatSession { sessionId := "s1", website := none } 0
          MemStorage.empty).2).isSome = true) :=
  ⟨rfl, rfl, rfl⟩

/-! ### Storage operation lemmas -/

theorem createChatMessage_fresh (ins : InsertChatMessage) (now : Nat) (st : MemStorage)
    (hwf : ∀ m ∈ st.messages, m.id < st.messageIdCounter) :
    createChatMessage ins now st =
      ({ id := st.messageIdCounter, sessionId := ins.sessionId, message := jsOrNull ins.message
         sender := ins.sender, timestamp := now, hasFiles := ins.hasFiles.getD false
         processingStatus := "pending", pythonResponse := none },
       { st with
          messages := st.messages ++
            [{ id := st.messageIdCounter, sessionId := ins.sessionId
               message := jsOrNull ins.message, sender := ins.sender, timestamp := now
               hasFiles := ins.hasFiles.getD false, processingStatus := "pending"
               pythonResponse := none }]
          messageIdCounter := st.messageIdCounter + 1 }) := by
  simp only [createChatMessage]
  rw [mapSetBy_eq_append]
  intro t ht
  have h := hwf t ht
  simp only [beq_eq_false_iff_ne, ne_eq]
  omega

theorem createFeedback_fresh (ins : InsertChatFeedback) (now : Nat) (st : MemStorage)
    (hwf : ∀ fb ∈ st.feedback, fb.id < st.feedbackIdCounter) :
    createFeedback ins now st =
      ({ id := st.feedbackIdCounter, sessionId := ins.sessionId, messageId := ins.messageId
         isHelpful := ins.isHelpful, timestamp := now },
       { st with
          feedback := st.feedback ++
            [{ id := st.feedbackIdCounter, sessionId := ins.sessionId
               messageId := ins.messageId, isHelpful := ins.isHelpful, timestamp := now }]
          feedbackIdCounter := st.feedbackIdCounter + 1 }) := by
  simp only [createFeedback]
  rw [mapSetBy_eq_append]
  intro t ht
  have h := hwf t ht
  simp only [beq_eq_false_iff_ne, ne_eq]
  omega

theorem updateMessageStatus_appended (mid : Nat) (status : String) (st : MemStorage)
    (l : List ChatMessage) (pend : ChatMessage)
    (hmsgs : st.messages = l ++ [pend]) (hpend : pend.id = mid)
    (hkey : ∀ t ∈ l, (t.id == mid) = false) :
    updateMessageStatus mid status none st =
      (some { pend with processingStatus := status },
       { st with messages := l ++ [{ pend with processingStatus := status }] }) := by
  have hlnone : l.find? (fun t => t.id == mid) = none := by
    rw [List.find?_eq_none]
    intro x hx
    simp [hkey x hx]
  have hfind : st.messages.find? (fun t => t.id == mid) = some pend := by
    rw [hmsgs, List.find?_append, hlnone]
    simp [List.find?_cons, hpend]
  have hmap : mapSetBy (fun t => t.id) st.messages { pend with processingStatus := status } =
      l ++ [{ pend with processingStatus := status }] := by
    have hany : st.messages.any
        (fun t => t.id == ChatMessage.id { pend with processingStatus := status }) = true := by
      rw [hmsgs]
      simp [hpend]
    rw [mapSetBy_eq_map _ _ _ hany, hmsgs, List.map_append]
    congr 1
    · calc l.map (fun t =>
            if t.id == ChatMessage.id { pend with processingStatus := status }
            then { pend with processingStatus := status } else t)
          = l.map (fun t => t) := by
            refine List.map_congr_left ?_
            intro t ht
            have hne : (t.id == ChatMessage.id { pend with processingStatus := status }) = false := by
              simpa [hpend] using hkey t ht
            simp [hne]
        _ = l := List.map_id _
    · simp [hpend]
  simp only [updateMessageStatus, hfind, hmap]

/-- C2 (amended): a submission with absent body and no attachments is not
rejected.  POST /api/chat/message accepts it and writes exactly one
Message row with null body and sender user, which the synchronous handler
leaves in status processing; the only empty-message guard in the
repository is client-side, where the widget send handler silently skips
an empty submission without contacting the server. -/
theorem emptySubmissionCreatesMessage (sid : String) (now : Nat) (st : MemStorage)
    (hwf : ∀ m ∈ st.messages, m.id < st.messageIdCounter) :
    postChatMessage (some sid) none (some "user") [] now st =
      (.ok ({ id := st.messageIdCounter, sessionId := sid, message := none, sender := "user"
              timestamp := now, hasFiles := false, processingStatus := "processing"
              pythonResponse := none }, []),
       { st with
          messages := st.messages ++
            [{ id := st.messageIdCounter, sessionId := sid, message := none, sender := "user"
               timestamp := now, hasFiles := false, processingStatus := "processing"
               pythonResponse := none }]
          messageIdCounter := st.messageIdCounter + 1 }) := by
  have hkey : ∀ t ∈ st.messages, (t.id == st.messageIdCounter) = false := by
    intro t ht
    have h := hwf t ht
    simp only [beq_eq_false_iff_ne, ne_eq]
    omega
  simp only [postChatMessage]
  rw [createChatMessage_fresh _ _ _ hwf]
  simp only [saveFiles]
  rw [updateMessageStatus_appended st.messageIdCounter "processing" _ st.messages _ rfl rfl hkey]
  have hlnone : st.messages.find? (fun m => m.id == st.messageIdCounter) = none := by
    rw [List.find?_eq_none]
    intro x hx
    simp [hkey x hx]
  simp [hlnone, strOrNull, strTruthy, jsOrNull]

/-- Witness for C2 (amended) on the empty store. -/
theorem emptySubmissionCreatesMessage_check :
    postChatMessage (some "s1") none (some "user") [] 5 MemStorage.empty =
      (.ok ({ id := 1, sessionId := "s1", message := none, sender := "user"
              timestamp := 5, hasFiles := false, processingStatus := "processing"
              pythonResponse := none }, []),
       { MemStorage.empty with
          messages := [{ id := 1, sessionId := "s1", message := none, sender := "user"
                         timestamp := 5, hasFiles := false, processingStatus := "processing"
                         pythonResponse := none }]
          messageIdCounter := 2 }) := by
  have h := emptySubmissionCreatesMessage "s1" 5 MemStorage.empty (by decide)
  simpa [MemStorage.empty] using h

/-- C10 (amended): feedback submission does not require the target message
to exist.  For an existing session, any nonzero messageId (the only ids
the store ever assigns to messages are nonzero) and a well-typed boolean,
with no feedback yet for that id, POST /api/feedback succeeds and creates
a Feedback record for that messageId; nothing about the Message Store is
assumed, so the id may refer to no stored Message or to a user message.
The single exception forced by the counterexample is a messageId equal to
0, which the required-fields truthiness check rejects with a 400. -/
theorem feedbackIgnoresMessageExistence (sid : String) (mid : Int) (b : Bool) (now : Nat)
    (st : MemStorage) (hsid : sid ≠ "") (hmid : mid ≠ 0)
    (hsess : (getChatSession sid st).isSome = true)
    (hwf : ∀ fb ∈ st.feedback, fb.id < st.feedbackIdCounter)
    (hnone : getFeedbackForMessage mid st = none) :
    postFeedback sid mid b now st =
      (.ok { id := st.feedbackIdCounter, sessionId := sid, messageId := mid
             isHelpful := b, timestamp := now },
       { st with
          feedback := st.feedback ++
            [{ id := st.feedbackIdCounter, sessionId := sid, messageId := mid
               isHelpful := b, timestamp := now }]
          feedbackIdCounter := st.feedbackIdCounter + 1 }) := by
  have hguard : (sid == "" || mid == 0) = false := by
    simp [hsid, hmid]
  obtain ⟨s, hs⟩ := Option.isSome_iff_exists.mp hsess
  unfold postFeedback
  rw [hguard, hs, hnone]
  simp only [Bool.false_eq_true, if_false]
  rw [createFeedback_fresh _ _ _ hwf]

/-- Witness for C10 (amended): a store with one session and no messages at
all still accepts feedback for messageId 42. -/
theorem feedbackIgnoresMessageExistence_check :
    postFeedback "s1" 42 true 9
        (createChatSession { sessionId := "s1", website := none } 0 MemStorage.empty).2 =
      (.ok { id := 1, sessionId := "s1", messageId := 42, isHelpful := true, timestamp := 9 },
       { (createChatSession { sessionId := "s1", website := none } 0 MemStorage.empty).2 with
          feedback := [{ id := 1, sessionId := "s1", messageId := 42, isHelpful := true
                         timestamp := 9 }]
          feedbackIdCounter := 2 }) := by
  have h := feedbackIgnoresMessageExistence "s1" 42 true 9
    (createChatSession { sessionId := "s1", website := none } 0 MemStorage.empty).2
    (by decide) (by decide) rfl (by decide) rfl
  simpa using h

theorem find?_middle {α : Type} (p : α → Bool) (l1 l2 : List α) (x : α)
    (h1 : ∀ t ∈ l1, p t = false) (hx : p x = true) :
    (l1 ++ x :: l2).find? p = some x := by
  rw [List.find?_append]
  have hnone : l1.find? p = none := by
    rw [List.find?_eq_none]
    intro t ht
    simp [h1 t ht]
  rw [hnone]
  simp [List.find?_cons, hx]

/-- C4: when generation fails, the background task marks the user message
failed and stores the error payload (the object JSON.stringify produces
from the error field) as its generator output; the message list keeps its
length and its bot-message count, so no bot message is created.  The 30
second timeout resolution of the executor is itself a failure result
(success = false regardless of the pre-checks), so it flows through this
same branch and is handled identically to any generator failure. -/
theorem generationFailureMarksFailed (uid : Nat) (sid : String) (result : ExecResult)
    (now : Nat) (st : MemStorage) (m : ChatMessage)
    (hfail : result.success = false)
    (hnd : (st.messages.map (fun t => t.id)).Nodup)
    (hfind : st.messages.find? (fun t => t.id == uid) = some m) :
    statusOf uid (processGenerationResult uid sid result now st) = some "failed" ∧
    pyRespOf uid (processGenerationResult uid sid result now st) =
      some (some (.obj (match result.error with
                        | some e => [("error", .str e)]
                        | none => []))) ∧
    (processGenerationResult uid sid result now st).messages.length = st.messages.length ∧
    botCount (processGenerationResult uid sid result now st) = botCount st ∧
    (∀ parseJson scriptExists filesValid scriptPath,
      (executePythonScript parseJson scriptExists filesValid scriptPath .timeout).success =
        false) := by
  have hmid : m.id = uid := by
    have h := List.find?_some hfind
    simpa using h
  subst hmid
  obtain ⟨l1, l2, hl, hset, h1, h2⟩ :=
    mapSetBy_of_find?_nodup (fun t : ChatMessage => t.id) st.messages m
      { m with processingStatus := "failed"
               pythonResponse := some (.obj (match result.error with
                                             | some e => [("error", .str e)]
                                             | none => [])) }
      rfl hfind hnd
  have hstore : processGenerationResult m.id sid result now st =
      { st with messages := l1 ++
          { m with processingStatus := "failed"
                   pythonResponse := some (.obj (match result.error with
                                                 | some e => [("error", .str e)]
                                                 | none => [])) } :: l2 } := by
    simp only [processGenerationResult, hfail, Bool.false_eq_true, if_false]
    simp only [updateMessageStatus, hfind]
    rw [hset]
  refine ⟨?_, ?_, ?_, ?_, ?_⟩
  · rw [hstore]
    unfold statusOf
    rw [find?_middle _ l1 l2 _ h1 (by simp)]
    rfl
  · rw [hstore]
    unfold pyRespOf
    rw [find?_middle _ l1 l2 _ h1 (by simp)]
    rfl
  · rw [hstore]
    simp [hl]
  · rw [hstore]
    unfold botCount
    rw [hl]
    by_cases hb : m.sender = "bot" <;>
      simp [List.filter_append, List.filter_cons, hb]
  · intro parseJson scriptExists filesValid scriptPath
    cases scriptExists <;> cases filesValid <;> simp [executePythonScript]

/-- Witness for C4: one processing user message, timeout outcome. -/
theorem generationFailureMarksFailed_check :
    statusOf 1 (processGenerationResult 1 "s1"
        { success := false, output := none
          error := some "Python script execution timeout (30s)" } 9
        (postChatMessage (some "s1") (some "hi") (some "user") [] 3 MemStorage.empty).2) =
      some "failed" ∧
    pyRespOf 1 (processGenerationResult 1 "s1"
        { success := false, output := none
          error := some "Python script execution timeout (30s)" } 9
        (postChatMessage (some "s1") (some "hi") (some "user") [] 3 MemStorage.empty).2) =
      some (some (.obj [("error", .str "Python script execution timeout (30s)")])) ∧
    (processGenerationResult 1 "s1"
        { success := false, output := none
          error := some "Python script execution timeout (30s)" } 9
        (postChatMessage (some "s1") (some "hi") (some "user") [] 3
          MemStorage.empty).2).messages.length =
      (postChatMessage (some "s1") (some "hi") (some "user") [] 3
        MemStorage.empty).2.messages.length ∧
    botCount (processGenerationResult 1 "s1"
        { success := false, output := none
          error := some "Python script execution timeout (30s)" } 9
        (postChatMessage (some "s1") (some "hi") (some "user") [] 3 MemStorage.empty).2) =
      botCount (postChatMessage (some "s1") (some "hi") (some "user") [] 3
        MemStorage.empty).2 := by
  have h := generationFailureMarksFailed 1 "s1"
    { success := false, output := none
      error := some "Python script execution timeout (30s)" } 9
    (postChatMessage (some "s1") (some "hi") (some "user") [] 3 MemStorage.empty).2
    { id := 1, sessionId := "s1", message := some (.str "hi"), sender := "user"
      timestamp := 3, hasFiles := false, processingStatus := "processing"
      pythonResponse := none }
    rfl (by decide) rfl
  exact ⟨h.1, h.2.1, h.2.2.1, h.2.2.2.1⟩

/-- One accepted POST /api/feedback call: the result is a single feedback
row for the message id (created or updated in place), sessions are
untouched, the store stays well-formed, and the row id is stable across
an update. -/
theorem postFeedback_step (sid : String) (mid : Int) (b : Bool) (t : Nat) (st : MemStorage)
    (hsid : sid ≠ "") (hmid : mid ≠ 0)
    (hsess : (getChatSession sid st).isSome = true)
    (hnd : (st.feedback.map (fun f => f.id)).Nodup)
    (hbound : ∀ fb ∈ st.feedback, fb.id < st.feedbackIdCounter)
    (honce : (feedbacksFor mid st).length ≤ 1) :
    ∃ fb st2, postFeedback sid mid b t st = (.ok fb, st2) ∧
      feedbacksFor mid st2 = [fb] ∧ fb.isHelpful = b ∧
      st2.sessions = st.sessions ∧
      (st2.feedback.map (fun f => f.id)).Nodup ∧
      (∀ g ∈ st2.feedback, g.id < st2.feedbackIdCounter) ∧
      (∀ e, feedbacksFor mid st = [e] → fb.id = e.id) := by
  have hguard : (sid == "" || mid == 0) = false := by simp [hsid, hmid]
  obtain ⟨s, hs⟩ := Option.isSome_iff_exists.mp hsess
  cases hexist : getFeedbackForMessage mid st with
  | none =>
    have hnomatch : ∀ f ∈ st.feedback, (f.messageId == mid) = false := by
      rw [getFeedbackForMessage, List.find?_eq_none] at hexist
      intro f hf
      simpa using hexist f hf
    have hfilter : feedbacksFor mid st = [] := by
      rw [feedbacksFor, List.filter_eq_nil_iff]
      intro f hf
      simp [hnomatch f hf]
    refine ⟨{ id := st.feedbackIdCounter, sessionId := sid, messageId := mid
              isHelpful := b, timestamp := t },
            { st with
               feedback := st.feedback ++
                 [{ id := st.feedbackIdCounter, sessionId := sid, messageId := mid
                    isHelpful := b, timestamp := t }]
               feedbackIdCounter := st.feedbackIdCounter + 1 },
            ?_, ?_, rfl, rfl, ?_, ?_, ?_⟩
    · unfold postFeedback
      rw [hguard, hs, hexist]
      simp only [Bool.false_eq_true, if_false]
      rw [createFeedback_fresh _ _ _ hbound]
    · rw [feedbacksFor]
      simp only [List.filter_append]
      rw [show st.feedback.filter (fun fb => fb.messageId == mid) = [] from hfilter]
      simp [List.filter_cons]
    · simp only [List.map_append, List.map_cons, List.map_nil]
      rw [List.nodup_append]
      refine ⟨hnd, List.nodup_singleton _, ?_⟩
      intro a ha hb'
      simp only [List.mem_singleton] at hb'
      subst hb'
      obtain ⟨f, hf, hfid⟩ := List.mem_map.mp ha
      have := hbound f hf
      omega
    · intro g hg
      show g.id < st.feedbackIdCounter + 1
      rcases List.mem_append.mp hg with hg' | hg'
      · have := hbound g hg'
        omega
      · simp only [List.mem_singleton] at hg'
        subst hg'
        show st.feedbackIdCounter < st.feedbackIdCounter + 1
        omega
    · intro e he
      rw [hfilter] at he
      cases he
  | some e =>
    have hexist' : st.feedback.find? (fun fb => fb.messageId == mid) = some e := hexist
    have he_mem : e ∈ st.feedback := List.mem_of_find?_eq_some hexist'
    have he_p : (e.messageId == mid) = true := by
      have h := @List.find?_some ChatFeedback (fun fb => fb.messageId == mid) e
        st.feedback hexist'
      simpa using h
    have hfilter : feedbacksFor mid st = [e] :=
      filter_eq_single _ _ _ he_mem he_p honce
    have hfind_id : st.feedback.find? (fun f => f.id == e.id) = some e :=
      find?_of_nodup_key (fun f : ChatFeedback => f.id) st.feedback e hnd he_mem
    obtain ⟨l1, l2, hl, hset, h1, h2⟩ :=
      mapSetBy_of_find?_nodup (fun f : ChatFeedback => f.id) st.feedback e
        { e with isHelpful := b, timestamp := t } rfl hfind_id hnd
    have hupd : postFeedback sid mid b t st =
        (.ok { e with isHelpful := b, timestamp := t },
         { st with feedback := l1 ++ { e with isHelpful := b, timestamp := t } :: l2 }) := by
      unfold postFeedback
      rw [hguard, hs, hexist]
      simp only [Bool.false_eq_true, if_false]
      simp only [updateFeedback, hfind_id]
      rw [hset]
    have hfl : st.feedback.filter (fun fb => fb.messageId == mid) = [e] := hfilter
    have hnil : l1.filter (fun fb => fb.messageId == mid) = [] ∧
        l2.filter (fun fb => fb.messageId == mid) = [] := by
      rw [hl] at hfl
      rw [List.filter_append, List.filter_cons] at hfl
      rw [if_pos he_p] at hfl
      have hlen := congrArg List.length hfl
      simp only [List.length_append, List.length_cons, List.length_nil] at hlen
      constructor
      · rw [← List.length_eq_zero]
        omega
      · rw [← List.length_eq_zero]
        omega
    refine ⟨{ e with isHelpful := b, timestamp := t },
            { st with feedback := l1 ++ { e with isHelpful := b, timestamp := t } :: l2 },
            hupd, ?_, rfl, rfl, ?_, ?_, ?_⟩
    · rw [feedbacksFor]
      simp only [List.filter_append, List.filter_cons]
      rw [hnil.1, hnil.2]
      simp [he_p]
    · have hmapeq : (l1 ++ { e with isHelpful := b, timestamp := t } :: l2).map
          (fun f => f.id) = st.feedback.map (fun f => f.id) := by
        rw [hl]
        simp
      simpa [hmapeq] using hnd
    · intro g hg
      have : g.id < st.feedbackIdCounter := by
        rcases List.mem_append.mp hg with hg' | hg'
        · exact hbound g (by rw [hl]; exact List.mem_append.mpr (Or.inl hg'))
        · rcases List.mem_cons.mp hg' with rfl | hg''
          · have := hbound e he_mem
            simpa using this
          · exact hbound g (by
              rw [hl]
              exact List.mem_append.mpr (Or.inr (List.mem_cons.mpr (Or.inr hg''))))
      simpa using this
    · intro e0 he0
      rw [hfilter] at he0
      have : e = e0 := by
        injection he0
      simp [← this]

/-- C3: two sequential feedback submissions for the same message leave
exactly one Feedback record, whose id is the id it had after the first
call and whose isHelpful equals the latest value.  With b1 = b2 this is
the same-boolean case (id and isHelpful unchanged by the second call);
with b1 ≠ b2 it is the latest-wins case. -/
theorem feedbackUpsertLaw (sid : String) (mid : Int) (b1 b2 : Bool) (t1 t2 : Nat)
    (st : MemStorage) (hsid : sid ≠ "") (hmid : mid ≠ 0)
    (hsess : (getChatSession sid st).isSome = true)
    (hnd : (st.feedback.map (fun f => f.id)).Nodup)
    (hbound : ∀ fb ∈ st.feedback, fb.id < st.feedbackIdCounter)
    (honce : (feedbacksFor mid st).length ≤ 1) :
    ∃ fb1 fb2,
      feedbacksFor mid (postFeedback sid mid b1 t1 st).2 = [fb1] ∧
      feedbacksFor mid (postFeedback sid mid b2 t2 (postFeedback sid mid b1 t1 st).2).2 = [fb2] ∧
      fb1.isHelpful = b1 ∧ fb2.isHelpful = b2 ∧ fb2.id = fb1.id := by
  obtain ⟨fb1, st1, heq1, hf1, hb1, hsess1, hnd1, hbound1, _⟩ :=
    postFeedback_step sid mid b1 t1 st hsid hmid hsess hnd hbound honce
  have hst1 : (postFeedback sid mid b1 t1 st).2 = st1 := by rw [heq1]
  have hsess' : (getChatSession sid st1).isSome = true := by
    unfold getChatSession
    rw [hsess1]
    exact hsess
  have honce1 : (feedbacksFor mid st1).length ≤ 1 := by
    rw [hf1]
    simp
  obtain ⟨fb2, st2, heq2, hf2, hb2, _, _, _, hlast2⟩ :=
    postFeedback_step sid mid b2 t2 st1 hsid hmid hsess' hnd1 hbound1 honce1
  have hst2 : (postFeedback sid mid b2 t2 st1).2 = st2 := by rw [heq2]
  refine ⟨fb1, fb2, ?_, ?_, hb1, hb2, hlast2 fb1 hf1⟩
  · rw [hst1]
    exact hf1
  · rw [hst1, hst2]
    exact hf2

/-- Witness for C3 on a one-session store: vote true then false for
message 7. -/
theorem feedbackUpsertLaw_check :
    ∃ fb1 fb2,
      feedbacksFor 7 (postFeedback "s1" 7 true 1
        (createChatSession { sessionId := "s1", website := none } 0 MemStorage.empty).2).2 =
        [fb1] ∧
      feedbacksFor 7 (postFeedback "s1" 7 false 2
        (postFeedback "s1" 7 true 1
          (createChatSession { sessionId := "s1", website := none } 0
            MemStorage.empty).2).2).2 = [fb2] ∧
      fb1.isHelpful = true ∧ fb2.isHelpful = false ∧ fb2.id = fb1.id :=
  feedbackUpsertLaw "s1" 7 true false 1 2
    (createChatSession { sessionId := "s1", website := none } 0 MemStorage.empty).2
    (by decide) (by decide) rfl (by decide) (by decide) (by decide)

/-! ### Status-tracking lemmas for the coordinator model -/

theorem find?_middle_congr {α : Type} (p : α → Bool) (l1 l2 : List α) (x y : α)
    (hx : p x = false) (hy : p y = false) :
    (l1 ++ x :: l2).find? p = (l1 ++ y :: l2).find? p := by
  rw [List.find?_append, List.find?_append, List.find?_cons, List.find?_cons]
  simp only [hx, hy]

theorem statusOf_create (ins : InsertChatMessage) (now : Nat) (st : MemStorage)
    (hb : ∀ m ∈ st.messages, m.id < st.messageIdCounter) (i : Nat) :
    statusOf i (createChatMessage ins now st).2 =
      if i = st.messageIdCounter then some "pending" else statusOf i st := by
  rw [createChatMessage_fresh _ _ _ hb]
  unfold statusOf
  simp only [List.find?_append]
  by_cases hi : i = st.messageIdCounter
  · have hnone : st.messages.find? (fun m => m.id == st.messageIdCounter) = none := by
      rw [List.find?_eq_none]
      intro x hx
      have h := hb x hx
      simp only [beq_iff_eq]
      omega
    subst hi
    rw [hnone]
    simp [List.find?_cons]
  · have hcond : (st.messageIdCounter == i) = false := by
      simp only [beq_eq_false_iff_ne, ne_eq]
      omega
    simp [List.find?_cons, hcond, hi]

theorem updateMessageStatus_ids (mid : Nat) (status : String) (py : Option JsonVal)
    (st : MemStorage) :
    (updateMessageStatus mid status py st).2.messages.map (fun t => t.id) =
      st.messages.map (fun t => t.id) ∧
    (updateMessageStatus mid status py st).2.messageIdCounter = st.messageIdCounter := by
  cases hfind : st.messages.find? (fun t => t.id == mid) with
  | none => simp [updateMessageStatus, hfind]
  | some m =>
    have hany : st.messages.any (fun t => t.id ==
        ChatMessage.id { m with processingStatus := status
                                pythonResponse := match py with
                                  | some p => some p
                                  | none => m.pythonResponse }) = true := by
      simp only [List.any_eq_true]
      exact ⟨m, List.mem_of_find?_eq_some hfind, by simp⟩
    constructor
    · simp only [updateMessageStatus, hfind]
      rw [mapSetBy_eq_map _ _ _ hany, List.map_map]
      refine List.map_congr_left ?_
      intro t ht
      by_cases h : t.id = m.id
      · simp [Function.comp, h]
      · simp [Function.comp, h]
    · simp only [updateMessageStatus, hfind]

theorem updateMessageStatus_decomp (mid : Nat) (status : String) (py : Option JsonVal)
    (st : MemStorage) (m : ChatMessage)
    (hnd : (st.messages.map (fun t => t.id)).Nodup)
    (hfind : st.messages.find? (fun t => t.id == mid) = some m) :
    ∃ l1 l2, st.messages = l1 ++ m :: l2 ∧
      (updateMessageStatus mid status py st).2 =
        { st with messages := l1 ++
            { m with processingStatus := status
                     pythonResponse := match py with
                       | some p => some p
                       | none => m.pythonResponse } :: l2 } ∧
      (∀ t ∈ l1, (t.id == mid) = false) ∧ (∀ t ∈ l2, (t.id == mid) = false) := by
  have hm : m.id = mid := by
    have h := @List.find?_some ChatMessage (fun t => t.id == mid) m st.messages hfind
    simpa using h
  subst hm
  obtain ⟨l1, l2, hl, hset, h1, h2⟩ :=
    mapSetBy_of_find?_nodup (fun t : ChatMessage => t.id) st.messages m
      { m with processingStatus := status
               pythonResponse := match py with
                 | some p => some p
                 | none => m.pythonResponse }
      rfl hfind hnd
  refine ⟨l1, l2, hl, ?_, h1, h2⟩
  simp only [updateMessageStatus, hfind]
  rw [hset]

theorem statusOf_after_update (mid : Nat) (status : String) (py : Option JsonVal)
    (st : MemStorage) (m : ChatMessage)
    (hnd : (st.messages.map (fun t => t.id)).Nodup)
    (hfind : st.messages.find? (fun t => t.id == mid) = some m) (i : Nat) :
    statusOf i (updateMessageStatus mid status py st).2 =
      if i = mid then some status else statusOf i st := by
  obtain ⟨l1, l2, hl, hst, h1, h2⟩ := updateMessageStatus_decomp mid status py st m hnd hfind
  have hm : m.id = mid := by
    have h := @List.find?_some ChatMessage (fun t => t.id == mid) m st.messages hfind
    simpa using h
  rw [hst]
  unfold statusOf
  by_cases hi : i = mid
  · subst hi
    rw [find?_middle _ l1 l2 _ h1 (by simp [hm])]
    simp
  · have hyf : (m.id == i) = false := by
      simp only [beq_eq_false_iff_ne, ne_eq]
      omega
    rw [find?_middle_congr (fun t : ChatMessage => t.id == i) l1 l2 _ m
      (by simpa using hyf) hyf, ← hl]
    simp [hi]

theorem statusOf_some_elim (i : Nat) (st : MemStorage) (s0 : String)
    (h : statusOf i st = some s0) :
    ∃ m, st.messages.find? (fun t => t.id == i) = some m ∧ m.id = i ∧
      m.processingStatus = s0 ∧ m ∈ st.messages := by
  unfold statusOf at h
  cases hfind : st.messages.find? (fun t => t.id == i) with
  | none => rw [hfind] at h; cases h
  | some m =>
    rw [hfind] at h
    refine ⟨m, rfl, ?_, ?_, List.mem_of_find?_eq_some hfind⟩
    · have hid := @List.find?_some ChatMessage (fun t => t.id == i) m st.messages hfind
      simpa using hid
    · simpa using h

theorem statusOf_lt (i : Nat) (st : MemStorage) (s0 : String)
    (hbound : ∀ m ∈ st.messages, m.id < st.messageIdCounter)
    (h : statusOf i st = some s0) : i < st.messageIdCounter := by
  obtain ⟨m, _, hid, _, hmem⟩ := statusOf_some_elim i st s0 h
  have := hbound m hmem
  omega

theorem bound_of_ids_eq (st st2 : MemStorage)
    (hids : st2.messages.map (fun t => t.id) = st.messages.map (fun t => t.id))
    (hc : st2.messageIdCounter = st.messageIdCounter)
    (hbound : ∀ m ∈ st.messages, m.id < st.messageIdCounter) :
    ∀ m ∈ st2.messages, m.id < st2.messageIdCounter := by
  intro m hm
  have hmm : m.id ∈ st2.messages.map (fun t => t.id) := List.mem_map_of_mem _ hm
  rw [hids] at hmm
  obtain ⟨m0, hm0, hid⟩ := List.mem_map.mp hmm
  rw [hc, ← hid]
  exact hbound m0 hm0

theorem create_ids (ins : InsertChatMessage) (now : Nat) (st : MemStorage)
    (hb : ∀ m ∈ st.messages, m.id < st.messageIdCounter) :
    (createChatMessage ins now st).2.messages.map (fun t => t.id) =
      st.messages.map (fun t => t.id) ++ [st.messageIdCounter] ∧
    (createChatMessage ins now st).2.messageIdCounter = st.messageIdCounter + 1 := by
  rw [createChatMessage_fresh _ _ _ hb]
  simp

theorem processGen_failure (i0 : Nat) (sid : String) (result : ExecResult) (now : Nat)
    (st : MemStorage) (hres : result.success = false) :
    processGenerationResult i0 sid result now st =
      (updateMessageStatus i0 "failed"
        (some (.obj (match result.error with
          | some e => [("error", .str e)]
          | none => []))) st).2 := by
  simp [processGenerationResult, hres]

theorem processGen_success (i0 : Nat) (sid : String) (result : ExecResult) (now : Nat)
    (st : MemStorage) (hres : result.success = true) :
    processGenerationResult i0 sid result now st =
      (createChatMessage
        { sessionId := sid, message := some (botResponse result.output), sender := "bot"
          hasFiles := some false, processingStatus := some "completed"
          pythonResponse := result.output } now
        (updateMessageStatus i0 "completed" result.output st).2).2 := by
  simp [processGenerationResult, hres]

/-! ### The coordinator transition system (C9)

The states reachable by the message lifecycle coordinator: each POST of a
user message creates its row (pending) and later marks it processing, and
the background task scheduled for it later finishes exactly once, marking
it completed (also appending the bot reply row) or failed.  The toMark
and inFlight queues record which per-message program points are still
outstanding, which is exactly the ordering the handler code guarantees;
distinct requests interleave freely. -/

structure CoordState where
  store : MemStorage
  toMark : List Nat
  inFlight : List Nat

def CoordState.init : CoordState :=
  { store := MemStorage.empty, toMark := [], inFlight := [] }

inductive CoordStep : CoordState → CoordState → Prop where
  | submit (ins : InsertChatMessage) (now : Nat) (s : CoordState) :
      CoordStep s
        { store := (createChatMessage ins now s.store).2
          toMark := if ins.sender == "user"
                    then (createChatMessage ins now s.store).1.id :: s.toMark
                    else s.toMark
          inFlight := s.inFlight }
  | markProcessing (j : Nat) (s : CoordState) (h : j ∈ s.toMark) :
      CoordStep s
        { store := (updateMessageStatus j "processing" none s.store).2
          toMark := s.toMark.erase j
          inFlight := j :: s.inFlight }
  | finish (j : Nat) (sid : String) (result : ExecResult) (now : Nat) (s : CoordState)
      (h : j ∈ s.inFlight) :
      CoordStep s
        { store := processGenerationResult j sid result now s.store
          toMark := s.toMark
          inFlight := s.inFlight.erase j }

def CoordReachable (s : CoordState) : Prop :=
  Relation.ReflTransGen CoordStep CoordState.init s

/-- Invariant of reachable coordinator states: message ids are unique and
below the counter, the queues hold no duplicates, messages awaiting their
processing mark are pending, and messages with a live background task are
processing. -/
def CoordInv (s : CoordState) : Prop :=
  (s.store.messages.map (fun m => m.id)).Nodup ∧
  (∀ m ∈ s.store.messages, m.id < s.store.messageIdCounter) ∧
  s.toMark.Nodup ∧
  s.inFlight.Nodup ∧
  (∀ i ∈ s.toMark, statusOf i s.store = some "pending") ∧
  (∀ i ∈ s.inFlight, statusOf i s.store = some "processing")

theorem coordInv_init : CoordInv CoordState.init := by
  refine ⟨?_, ?_, ?_, ?_, ?_, ?_⟩ <;>
    simp [CoordState.init, MemStorage.empty]

theorem create_bound (ins : InsertChatMessage) (now : Nat) (st : MemStorage)
    (hb : ∀ m ∈ st.messages, m.id < st.messageIdCounter) :
    ∀ m ∈ (createChatMessage ins now st).2.messages,
      m.id < (createChatMessage ins now st).2.messageIdCounter := by
  intro m hm
  rw [createChatMessage_fresh _ _ _ hb] at hm ⊢
  simp only [List.mem_append, List.mem_singleton] at hm
  rcases hm with hm | rfl
  · have h := hb m hm
    show m.id < st.messageIdCounter + 1
    omega
  · show st.messageIdCounter < st.messageIdCounter + 1
    omega

theorem create_nodup (ins : InsertChatMessage) (now : Nat) (st : MemStorage)
    (hb : ∀ m ∈ st.messages, m.id < st.messageIdCounter)
    (hnd : (st.messages.map (fun m => m.id)).Nodup) :
    ((createChatMessage ins now st).2.messages.map (fun m => m.id)).Nodup := by
  rw [(create_ids ins now st hb).1, List.nodup_append]
  refine ⟨hnd, List.nodup_singleton _, ?_⟩
  intro a ha hb2
  simp only [List.mem_singleton] at hb2
  subst hb2
  obtain ⟨m0, hm0, hid0⟩ := List.mem_map.mp ha
  have h := hb m0 hm0
  omega

theorem coordInv_step (s s2 : CoordState) (hinv : CoordInv s) (hstep : CoordStep s s2) :
    CoordInv s2 := by
  obtain ⟨hnd, hbound, hndT, hndF, hpend, hproc⟩ := hinv
  cases hstep with
  | submit ins now s_pre =>
    have hnewid : (createChatMessage ins now s.store).1.id = s.store.messageIdCounter := by
      rw [createChatMessage_fresh _ _ _ hbound]
    have hTsub : ∀ i ∈ s.toMark, i < s.store.messageIdCounter := fun i hi =>
      statusOf_lt i s.store "pending" hbound (hpend i hi)
    have hFsub : ∀ i ∈ s.inFlight, i < s.store.messageIdCounter := fun i hi =>
      statusOf_lt i s.store "processing" hbound (hproc i hi)
    refine ⟨create_nodup ins now s.store hbound hnd, create_bound ins now s.store hbound,
      ?_, hndF, ?_, ?_⟩
    · by_cases hu : (ins.sender == "user") = true
      · rw [if_pos hu, hnewid, List.nodup_cons]
        refine ⟨?_, hndT⟩
        intro hmem
        have h := hTsub _ hmem
        omega
      · rw [if_neg (by simpa using hu)]
        exact hndT
    · intro i hi
      rw [statusOf_create ins now s.store hbound i]
      by_cases hu : (ins.sender == "user") = true
      · rw [if_pos hu, hnewid, List.mem_cons] at hi
        rcases hi with rfl | hi
        · rw [if_pos rfl]
        · rw [if_neg (by have h := hTsub i hi; omega)]
          exact hpend i hi
      · rw [if_neg (by simpa using hu)] at hi
        rw [if_neg (by have h := hTsub i hi; omega)]
        exact hpend i hi
    · intro i hi
      rw [statusOf_create ins now s.store hbound i]
      rw [if_neg (by have h := hFsub i hi; omega)]
      exact hproc i hi
  | markProcessing j s_pre hj =>
    have hpj := hpend j hj
    obtain ⟨m, hfind, hmid, hms, hmem⟩ := statusOf_some_elim j s.store "pending" hpj
    have hids := updateMessageStatus_ids j "processing" none s.store
    have hbound2 := bound_of_ids_eq s.store _ hids.1 hids.2 hbound
    have hjF : j ∉ s.inFlight := by
      intro hmem2
      have h1 := hproc j hmem2
      rw [hpj] at h1
      injection h1 with h2
      exact absurd h2 (by decide)
    refine ⟨?_, hbound2, List.Nodup.erase _ hndT, ?_, ?_, ?_⟩
    · rw [hids.1]
      exact hnd
    · rw [List.nodup_cons]
      exact ⟨hjF, hndF⟩
    · intro i hi
      have hi2 := (List.Nodup.mem_erase_iff hndT).mp hi
      rw [statusOf_after_update j "processing" none s.store m hnd hfind i, if_neg hi2.1]
      exact hpend i hi2.2
    · intro i hi
      rcases List.mem_cons.mp hi with rfl | hi2
      · rw [statusOf_after_update i "processing" none s.store m hnd hfind i, if_pos rfl]
      · have hne : i ≠ j := by
          rintro rfl
          exact hjF hi2
        rw [statusOf_after_update j "processing" none s.store m hnd hfind i, if_neg hne]
        exact hproc i hi2
  | finish j sid result now s_pre hj =>
    have hpj := hproc j hj
    obtain ⟨m, hfind, hmid, hms, hmem⟩ := statusOf_some_elim j s.store "processing" hpj
    have hjT : j ∉ s.toMark := by
      intro hmem2
      have h1 := hpend j hmem2
      rw [hpj] at h1
      injection h1 with h2
      exact absurd h2 (by decide)
    cases hres : result.success with
    | false =>
      rw [processGen_failure j sid result now s.store hres]
      have hids := updateMessageStatus_ids j "failed"
        (some (.obj (match result.error with
          | some e => [("error", .str e)]
          | none => []))) s.store
      have hbound2 := bound_of_ids_eq s.store _ hids.1 hids.2 hbound
      refine ⟨?_, hbound2, hndT, List.Nodup.erase _ hndF, ?_, ?_⟩
      · rw [hids.1]
        exact hnd
      · intro i hi
        have hne : i ≠ j := by
          rintro rfl
          exact hjT hi
        rw [statusOf_after_update j "failed" _ s.store m hnd hfind i, if_neg hne]
        exact hpend i hi
      · intro i hi
        have hi2 := (List.Nodup.mem_erase_iff hndF).mp hi
        rw [statusOf_after_update j "failed" _ s.store m hnd hfind i, if_neg hi2.1]
        exact hproc i hi2.2
    | true =>
      rw [processGen_success j sid result now s.store hres]
      have hids1 := updateMessageStatus_ids j "completed" result.output s.store
      have hbound1 := bound_of_ids_eq s.store _ hids1.1 hids1.2 hbound
      have hnd1 : ((updateMessageStatus j "completed" result.output
          s.store).2.messages.map (fun m => m.id)).Nodup := by
        rw [hids1.1]
        exact hnd
      refine ⟨create_nodup _ now _ hbound1 hnd1, create_bound _ now _ hbound1,
        hndT, List.Nodup.erase _ hndF, ?_, ?_⟩
      · intro i hi
        have hne : i ≠ j := by
          rintro rfl
          exact hjT hi
        have hlt : i < s.store.messageIdCounter :=
          statusOf_lt i s.store "pending" hbound (hpend i hi)
        rw [statusOf_create _ now _ hbound1 i]
        rw [if_neg (by rw [hids1.2]; omega)]
        rw [statusOf_after_update j "completed" result.output s.store m hnd hfind i,
          if_neg hne]
        exact hpend i hi
      · intro i hi
        have hi2 := (List.Nodup.mem_erase_iff hndF).mp hi
        have hlt : i < s.store.messageIdCounter :=
          statusOf_lt i s.store "processing" hbound (hproc i hi2.2)
        rw [statusOf_create _ now _ hbound1 i]
        rw [if_neg (by rw [hids1.2]; omega)]
        rw [statusOf_after_update j "completed" result.output s.store m hnd hfind i,
          if_neg hi2.1]
        exact hproc i hi2.2

theorem coordInv_reachable (s : CoordState) (h : CoordReachable s) : CoordInv s := by
  induction h with
  | refl => exact coordInv_init
  | tail hab hbc ih => exact coordInv_step _ _ ih hbc

/-- Rank of a processing status along the lifecycle. -/
def rank : String → Nat
  | "processing" => 1
  | "completed" => 2
  | "failed" => 2
  | _ => 0

/-- C9: along any step the coordinator takes from a reachable state, no
message processingStatus moves backward: ranks never decrease, and a
message that is completed or failed keeps exactly that status. -/
theorem statusNeverBackward (s s2 : CoordState) (hreach : CoordReachable s)
    (hstep : CoordStep s s2) (i : Nat) (before after : String)
    (hb : statusOf i s.store = some before) (ha : statusOf i s2.store = some after) :
    rank before ≤ rank after ∧
    ((before = "completed" ∨ before = "failed") → after = before) := by
  obtain ⟨hnd, hbound, hndT, hndF, hpend, hproc⟩ := coordInv_reachable s hreach
  cases hstep with
  | submit ins now s_pre =>
    have hlt := statusOf_lt i s.store before hbound hb
    rw [statusOf_create ins now s.store hbound i] at ha
    rw [if_neg (by omega)] at ha
    rw [hb] at ha
    injection ha with ha2
    subst ha2
    exact ⟨Nat.le_refl _, fun _ => rfl⟩
  | markProcessing j s_pre hj =>
    have hpj := hpend j hj
    obtain ⟨m, hfind, hmid, hms, hmem⟩ := statusOf_some_elim j s.store "pending" hpj
    rw [statusOf_after_update j "processing" none s.store m hnd hfind i] at ha
    by_cases hij : i = j
    · subst hij
      rw [if_pos rfl] at ha
      injection ha with ha2
      rw [hb] at hpj
      injection hpj with hb2
      subst ha2
      subst hb2
      decide
    · rw [if_neg hij, hb] at ha
      injection ha with ha2
      subst ha2
      exact ⟨Nat.le_refl _, fun _ => rfl⟩
  | finish j sid result now s_pre hj =>
    have hpj := hproc j hj
    obtain ⟨m, hfind, hmid, hms, hmem⟩ := statusOf_some_elim j s.store "processing" hpj
    cases hres : result.success with
    | false =>
      rw [processGen_failure j sid result now s.store hres] at ha
      rw [statusOf_after_update j "failed"
        (some (.obj (match result.error with
          | some e => [("error", .str e)]
          | none => []))) s.store m hnd hfind i] at ha
      by_cases hij : i = j
      · subst hij
        rw [if_pos rfl] at ha
        injection ha with ha2
        rw [hb] at hpj
        injection hpj with hb2
        subst ha2
        subst hb2
        decide
      · rw [if_neg hij, hb] at ha
        injection ha with ha2
        subst ha2
        exact ⟨Nat.le_refl _, fun _ => rfl⟩
    | true =>
      rw [processGen_success j sid result now s.store hres] at ha
      have hids1 := updateMessageStatus_ids j "completed" result.output s.store
      have hbound1 := bound_of_ids_eq s.store _ hids1.1 hids1.2 hbound
      have hlt := statusOf_lt i s.store before hbound hb
      rw [statusOf_create _ now _ hbound1 i] at ha
      rw [if_neg (by rw [hids1.2]; omega)] at ha
      rw [statusOf_after_update j "completed" result.output s.store m hnd hfind i] at ha
      by_cases hij : i = j
      · subst hij
        rw [if_pos rfl] at ha
        injection ha with ha2
        rw [hb] at hpj
        injection hpj with hb2
        subst ha2
        subst hb2
        decide
      · rw [if_neg hij, hb] at ha
        injection ha with ha2
        subst ha2
        exact ⟨Nat.le_refl _, fun _ => rfl⟩

/-- Witness for C9: from the reachable state holding one pending user
message, the markProcessing step moves it pending → processing, a
non-decreasing transition. -/
theorem statusNeverBackward_check :
    rank "pending" ≤ rank "processing" ∧
    (("pending" = "completed" ∨ "pending" = "failed") → "processing" = "pending") := by
  have hstep1 := CoordStep.submit
    { sessionId := "s1", message := some (.str "hi"), sender := "user", hasFiles := some false
      processingStatus := none, pythonResponse := none } 0 CoordState.init
  exact statusNeverBackward _ _ (Relation.ReflTransGen.single hstep1)
    (CoordStep.markProcessing 1 _ (by decide)) 1 "pending" "processing" rfl rfl

end ChatSupport
